import Mathlib

/-!
# gonfig: a path-addressed JSON document store

Verification development for `src/main.go`.

The handler `primaryHandler`, its closures `saveRt`, `jsonOutput`, `checkEmpty`,
the `errorHandler` and the `SubpathMaxLength` table of `main` are embedded from
the source.  The router that calls them (package `github.com/bkeroack/travel`:
tokenisation, traversal, `Context`, `WalkBack`) is imported by `main.go` but is
not part of `src/`; it is modelled from sections 3, 4.2, 4.3, 6, 7 and 8 of the
specification and every such definition says so in its doc comment.

Go maps are reference types.  A map reachable from the root tree is represented
by its position (the keys leading to it from the root) and a write through the
reference is a functional update of the root tree at that position.  Trees
produced by `json.Unmarshal` and by the handler share no sub-maps, so a
position identifies a map uniquely.
-/

namespace Gonfig

/-! ## Values and maps -/

/-- A value as `encoding/json` decodes it into an `interface{}`: objects become
`map[string]interface{}`, arrays become slices.  The handler never inspects a
number, so numbers are carried by an arbitrary type `ν`. -/
inductive Value (ν : Type) where
  | null : Value ν
  | bool (b : Bool) : Value ν
  | num (n : ν) : Value ν
  | str (s : String) : Value ν
  | arr (xs : List (Value ν)) : Value ν
  | obj (m : List (String × Value ν)) : Value ν

/-- The Go type `map[string]interface{}`, as a list of entries.  The first
entry of a key is the one the map holds. -/
abbrev Container (ν : Type) := List (String × Value ν)

/-- The Go expression `v, ok := m[k]`. -/
def mapIndex {ν : Type} : Container ν → String → Option (Value ν)
  | [], _ => none
  | (k0, v0) :: rest, k => if k0 = k then some v0 else mapIndex rest k

/-- The Go statement `m[k] = v`: overwrite the entry of `k`, or add one. -/
def mapAssign {ν : Type} : Container ν → String → Value ν → Container ν
  | [], k, v => [(k, v)]
  | (k0, v0) :: rest, k, v =>
    if k0 = k then (k, v) :: rest else (k0, v0) :: mapAssign rest k v

/-- The Go statement `delete(m, k)`: afterwards `m` has no entry for `k`. -/
def mapDelete {ν : Type} (m : Container ν) (k : String) : Container ν :=
  m.filter (fun e => decide (e.1 ≠ k))

/-- The node that a sequence of keys denotes, descending from `cur`. -/
def nodeAt {ν : Type} : Value ν → List String → Option (Value ν)
  | cur, [] => some cur
  | Value.obj m, t :: ts =>
    match mapIndex m t with
    | some child => nodeAt child ts
    | none => none
  | _, _ :: _ => none

/-- Apply `f` to the map at position `pos` below the root map `m`, in place:
the effect on the root tree of mutating a map obtained by reference.  `none`
when `pos` does not lead to a map. -/
def updateAt {ν : Type} (f : Container ν → Container ν) :
    Container ν → List String → Option (Container ν)
  | m, [] => some (f m)
  | m, t :: ts =>
    match mapIndex m t with
    | some (Value.obj child) =>
      match updateAt f child ts with
      | some child2 => some (mapAssign m t (Value.obj child2))
      | none => none
    | _ => none

/-- The root tree after a mutation `f` of the map referenced by `co`.  A
reference that is not part of the root tree leaves the root tree as it is. -/
def throughRef {ν : Type} (root : Container ν) (co : List String)
    (f : Container ν → Container ν) : Container ν :=
  (updateAt f root co).getD root

/-! ## The travel router, modelled from the specification -/

/-- Modelled from the spec: the error kinds of section 7 (the travel package
that defines `TraversalError` is not in `src/`). -/
inductive ErrorKind where
  | PathNotFound
  | NotATraversableNode
  | SubpathTooDeep
  | EmptyPathRejected
  | InsufficientDepth
  | PersistenceError
  | DeserializationError
  | UnsupportedOperation
  deriving DecidableEq, Repr

/-- Modelled from the spec: `TraversalError.Code()`, the status codes of
section 6 (not-found 404, bad structural request 400, traversal-too-deep 400,
persistence failure 500, unsupported operation 405). -/
def ErrorKind.Code : ErrorKind → Nat
  | ErrorKind.PathNotFound => 404
  | ErrorKind.NotATraversableNode => 400
  | ErrorKind.SubpathTooDeep => 400
  | ErrorKind.EmptyPathRejected => 400
  | ErrorKind.InsufficientDepth => 500
  | ErrorKind.PersistenceError => 500
  | ErrorKind.DeserializationError => 400
  | ErrorKind.UnsupportedOperation => 405

/-- Modelled from the spec: `TraversalError.Error()`.  The spec gives no
message texts; the name of the kind stands for the text. -/
def ErrorKind.Error : ErrorKind → String
  | ErrorKind.PathNotFound => "PathNotFound"
  | ErrorKind.NotATraversableNode => "NotATraversableNode"
  | ErrorKind.SubpathTooDeep => "SubpathTooDeep"
  | ErrorKind.EmptyPathRejected => "EmptyPathRejected"
  | ErrorKind.InsufficientDepth => "InsufficientDepth"
  | ErrorKind.PersistenceError => "PersistenceError"
  | ErrorKind.DeserializationError => "DeserializationError"
  | ErrorKind.UnsupportedOperation => "UnsupportedOperation"

/-- Modelled from the spec: the TraversalResult of section 3.  `walked` is the
walked stack of section 4.2, kept as the keys consumed from the root (the
containers of the stack are the nodes these keys lead to). -/
structure TraversalResult (ν : Type) where
  CurrentObj : Value ν
  Subpath : List String
  walked : List String

/-- Modelled from the spec: the traversal of section 4.2 under the subpath
limit `spl` of the operation.  Descending into a non-container fails with
NotATraversableNode; a present token is pushed and followed; at an absent token
traversal stops with the unconsumed tokens as subpath.  A subpath of one token
is accepted when the limit allows it.  A subpath of more than one token is
turned down (4.2), and so is any subpath longer than the limit (section 3).
The kind of the error follows sections 7 and 8: SubpathTooDeep when the
operation tolerates a subpath and more tokens than that are left unresolved
(the depth-limit property of section 8), PathNotFound when the operation
tolerates none, that is when the node is required to exist (READ, DELETE:
sections 4.3 and 6, and the comment at `delete(po, k)` in `main.go`).  Section
4.2 names PathNotFound for the first case as well; sections 7 and 8, which
define and test the kinds, are followed there. -/
def traverse {ν : Type} (spl : Nat) :
    Value ν → List String → List String → Except ErrorKind (TraversalResult ν)
  | cur, walked, [] => Except.ok (TraversalResult.mk cur [] walked)
  | Value.obj m, walked, t :: ts =>
    match mapIndex m t with
    | some child => traverse spl child (walked ++ [t]) ts
    | none =>
      if 1 < (t :: ts).length then
        if spl = 0 then Except.error ErrorKind.PathNotFound
        else Except.error ErrorKind.SubpathTooDeep
      else if (t :: ts).length ≤ spl then
        Except.ok (TraversalResult.mk (Value.obj m) (t :: ts) walked)
      else Except.error ErrorKind.PathNotFound
  | _, _, _ :: _ => Except.error ErrorKind.NotATraversableNode

/-- Modelled from the spec: `travel.Context` as the handler uses it
(`RootTree`, `CurrentObj`, `Path`, `Subpath`) together with the walked stack
that `WalkBack` pops.  The Go method `WalkBack` returns a map and an error; the
spec says when it fails but not which map it returns next to the error, so that
map is left open as `orphan` (`none` for the nil map). -/
structure Context (ν : Type) where
  RootTree : Container ν
  CurrentObj : Value ν
  Path : List String
  Subpath : List String
  walked : List String
  orphan : Option (List String)

/-- Modelled from the spec: Walk-back(n) of section 4.2.  Pops `n` entries off
the walked stack and returns (a reference to) the container reached; fails with
InsufficientDepth when `n` exceeds the stack size.  `Except.ok po` stands for
the Go result `(po, nil)` and `Except.error (err, po)` for `(po, err)`. -/
def WalkBack {ν : Type} (c : Context ν) (n : Nat) :
    Except (ErrorKind × Option (List String)) (List String) :=
  if c.walked.length < n then Except.error (ErrorKind.InsufficientDepth, c.orphan)
  else Except.ok (c.walked.take (c.walked.length - n))

/-! ## The handler of `main.go` -/

/-- One write to the `http.ResponseWriter`: a JSON body (`jsonOutput`) or
`http.Error(w, msg, code)`. -/
inductive Reply (ν : Type) where
  | json (val : Value ν) : Reply ν
  | error (msg : String) (code : Nat) : Reply ν

/-- What a request leaves behind: the in-memory root tree, the writes to the
response in order, whether `saveRootTree` was called, and whether the handler
ended in a Go run-time panic (failed type assertion, assignment to an entry of
a nil map, index out of range). -/
structure Outcome (ν : Type) where
  RootTree : Container ν
  replies : List (Reply ν)
  saved : Bool
  panicked : Bool

/-- The closure `saveRt`: calls `saveRootTree(c.RootTree)`, whose result is
`saveErr` (`none` for a nil error), reports a failure with status 500 and
returns whether the save succeeded. -/
def saveRt {ν : Type} (saveErr : Option String) : List (Reply ν) × Bool :=
  match saveErr with
  | some err => ([Reply.error ("Error saving root tree: " ++ err) 500], false)
  | none => ([], true)

/-- The closure `jsonOutput`.  `json.Marshal` does not fail on a value that was
decoded from JSON, so the error branch is not represented. -/
def jsonOutput {ν : Type} (val : Value ν) : List (Reply ν) :=
  [Reply.json val]

/-- The closure `checkEmpty`: `false`, with a 400 reply, when the path is the
single empty token. -/
def checkEmpty {ν : Type} (c : Context ν) : List (Reply ν) × Bool :=
  if c.Path.length = 1 ∧ c.Path.head? = some "" then
    ([Reply.error "Bad Request: key is required" 400], false)
  else ([], true)

/-- The body that reports a successful mutation. -/
def successBody {ν : Type} (text : String) : Value ν :=
  Value.obj [("success", Value.str text)]

/-- Lines 86 to 95 of `main.go`: the map `co` that the PUT branch writes into,
with the replies written on the way; `none` when the type assertion on
`c.CurrentObj` panics.  When `WalkBack` fails the error is reported with status
500 but the branch does not return: `co` is the map that came with the error,
`none` for a nil map. -/
def putTarget {ν : Type} (c : Context ν) : Option (List (Reply ν) × Option (List String)) :=
  if c.Subpath.length = 0 then
    match WalkBack c 1 with
    | Except.error (wberr, po) => some ([Reply.error wberr.Error 500], po)
    | Except.ok po => some ([], some po)
  else
    match c.CurrentObj with
    | Value.obj _ => some ([], some c.walked)
    | _ => none

/-- The function `primaryHandler`.  `body` is the result of decoding the
request body and `saveErr` the result of `saveRootTree`.  The `Location`
header and the log lines are left out. -/
def primaryHandler {ν : Type} (method : String) (c : Context ν)
    (body : Except String (Value ν)) (saveErr : Option String) : Outcome ν :=
  if method = "GET" then
    Outcome.mk c.RootTree (jsonOutput c.CurrentObj) false false
  else if method = "PUT" then
    if (checkEmpty c).2 = false then
      Outcome.mk c.RootTree (checkEmpty c).1 false false
    else
      match body with
      | Except.error err =>
        Outcome.mk c.RootTree
          [Reply.error ("Could not serialize request body: " ++ err) 400] false false
      | Except.ok b =>
        match putTarget c with
        | none => Outcome.mk c.RootTree [] false true
        | some (written, co) =>
          match c.Path.getLast? with
          | none => Outcome.mk c.RootTree written false true
          | some k =>
            match co with
            | none => Outcome.mk c.RootTree written false true
            | some ref =>
              match (saveRt saveErr : List (Reply ν) × Bool) with
              | (reported, true) =>
                Outcome.mk (throughRef c.RootTree ref (fun m => mapAssign m k b))
                  (written ++ reported ++ jsonOutput (successBody "value written")) true false
              | (reported, false) =>
                Outcome.mk (throughRef c.RootTree ref (fun m => mapAssign m k b))
                  (written ++ reported ++ [Reply.error "Error saving value" 500]) true false
  else if method = "DELETE" then
    if (checkEmpty c).2 = false then
      Outcome.mk c.RootTree (checkEmpty c).1 false false
    else
      match WalkBack c 1 with
      | Except.error (err, _) =>
        Outcome.mk c.RootTree [Reply.error err.Error 500] false false
      | Except.ok po =>
        match c.Path.getLast? with
        | none => Outcome.mk c.RootTree [] false true
        | some k =>
          match (saveRt saveErr : List (Reply ν) × Bool) with
          | (reported, true) =>
            Outcome.mk (throughRef c.RootTree po (fun m => mapDelete m k))
              (reported ++ jsonOutput (successBody "value deleted")) true false
          | (reported, false) =>
            Outcome.mk (throughRef c.RootTree po (fun m => mapDelete m k))
              (reported ++ [Reply.error "Error deleting value" 500]) true false
  else
    Outcome.mk c.RootTree [Reply.error "Method Not Allowed" 405] false false

/-- The function `errorHandler`: `http.Error(w, err.Error(), err.Code())`. -/
def errorHandler {ν : Type} (err : ErrorKind) : List (Reply ν) :=
  [Reply.error err.Error err.Code]

/-- The table `options.SubpathMaxLength` of `main`. -/
def SubpathMaxLength : List (String × Nat) :=
  [("GET", 0), ("PUT", 1), ("DELETE", 0)]

/-- The subpath limit of a method; a method without an entry reads the zero
value of the Go map. -/
def subpathLimit (method : String) : Nat :=
  (SubpathMaxLength.lookup method).getD 0

/-- Modelled from the spec: the path as the handler sees it.  A request target
without tokens reaches the handler as the single empty token, the form that
`checkEmpty` tests for. -/
def contextPath (target : List String) : List String :=
  match target with
  | [] => [""]
  | _ :: _ => target

/-- Modelled from the spec: one request through the router built in `main`
(sections 2 and 4.3): traverse the root tree under the limit of the method,
hand a traversal error to `errorHandler`, otherwise run `primaryHandler` on the
resulting context.  The `orphan` of that context is never used: on it the
walk-back of PUT and DELETE can fail only for the empty path, which
`checkEmpty` turns down first. -/
def ServeHTTP {ν : Type} (root : Container ν) (method : String) (target : List String)
    (body : Except String (Value ν)) (saveErr : Option String) : Outcome ν :=
  match traverse (subpathLimit method) (Value.obj root) [] target with
  | Except.error err => Outcome.mk root (errorHandler err) false false
  | Except.ok tr =>
    primaryHandler method
      (Context.mk root tr.CurrentObj (contextPath target) tr.Subpath tr.walked none)
      body saveErr

/-- READ(path) of section 6. -/
def READ {ν : Type} (root : Container ν) (path : List String) : Outcome ν :=
  ServeHTTP root "GET" path (Except.ok Value.null) none

/-- WRITE(path, value) of section 6 with `saveErr` the result of persisting. -/
def WRITE {ν : Type} (root : Container ν) (path : List String) (v : Value ν)
    (saveErr : Option String) : Outcome ν :=
  ServeHTTP root "PUT" path (Except.ok v) saveErr

/-- DELETE(path) of section 6 with `saveErr` the result of persisting. -/
def DELETE {ν : Type} (root : Container ν) (path : List String)
    (saveErr : Option String) : Outcome ν :=
  ServeHTTP root "DELETE" path (Except.ok Value.null) saveErr

/-! ## Trees of the end-to-end scenario -/

/-- The tree written `{}`. -/
def emptyTree : Container Int := []

/-- The tree written `{"foo": {}}`. -/
def fooTree : Container Int := [("foo", Value.obj [])]

/-- The tree written `{"foo": {"bar": 42}}`. -/
def fooBarTree : Container Int := [("foo", Value.obj [("bar", Value.num 42)])]

/-- The tree written `{"foo": {"bar": 42, "baz": 7}}`. -/
def siblingTree : Container Int :=
  [("foo", Value.obj [("bar", Value.num 42), ("baz", Value.num 7)])]

/-- The tree written `{"a": 1}`. -/
def leafTree : Container Int := [("a", Value.num 1)]

/-- A context for the path `a` on `leafTree` whose walked stack is empty, so
that `WalkBack` fails on it, and on which `WalkBack` hands back the root map
together with its error. -/
def strayContext : Context Int :=
  Context.mk leafTree (Value.obj leafTree) ["a"] [] [] (some [])

/-- The same context with the nil map handed back next to the error. -/
def strayContextNil : Context Int :=
  Context.mk leafTree (Value.obj leafTree) ["a"] [] [] none

/-! ## Go maps as entry lists -/

theorem mapIndex_mapAssign_same {ν : Type} (m : Container ν) (k : String) (v : Value ν) :
    mapIndex (mapAssign m k v) k = some v := by
  induction m with
  | nil => simp [mapAssign, mapIndex]
  | cons e rest ih =>
    obtain ⟨k0, v0⟩ := e
    by_cases h : k0 = k
    · simp [mapAssign, mapIndex, h]
    · simp [mapAssign, mapIndex, h, ih]

theorem mapIndex_mapAssign_ne {ν : Type} (m : Container ν) (k k1 : String) (v : Value ν)
    (h : k1 ≠ k) : mapIndex (mapAssign m k v) k1 = mapIndex m k1 := by
  induction m with
  | nil => simp [mapAssign, mapIndex, Ne.symm h]
  | cons e rest ih =>
    obtain ⟨k0, v0⟩ := e
    by_cases h0 : k0 = k
    · subst h0
      simp [mapAssign, mapIndex, Ne.symm h]
    · simp [mapAssign, mapIndex, h0, ih]

theorem mapIndex_mapDelete_same {ν : Type} (m : Container ν) (k : String) :
    mapIndex (mapDelete m k) k = none := by
  induction m with
  | nil => simp [mapDelete, mapIndex]
  | cons e rest ih =>
    obtain ⟨k0, v0⟩ := e
    by_cases h : k0 = k
    · simpa [mapDelete, List.filter, h] using ih
    · simpa [mapDelete, List.filter, h, mapIndex] using ih

theorem mapIndex_mapDelete_ne {ν : Type} (m : Container ν) (k k1 : String)
    (h : k1 ≠ k) : mapIndex (mapDelete m k) k1 = mapIndex m k1 := by
  induction m with
  | nil => simp [mapDelete, mapIndex]
  | cons e rest ih =>
    obtain ⟨k0, v0⟩ := e
    by_cases h0 : k0 = k
    · subst h0
      simpa [mapDelete, List.filter, mapIndex, Ne.symm h] using ih
    · have ih2 : mapIndex (List.filter (fun e => decide (e.1 ≠ k)) rest) k1 = mapIndex rest k1 := ih
      simp only [mapDelete, List.filter, h0, mapIndex, ne_eq, not_false_eq_true, decide_True]
      rw [ih2]

theorem mapAssign_mapAssign {ν : Type} (m : Container ν) (k : String) (v w : Value ν) :
    mapAssign (mapAssign m k v) k w = mapAssign m k w := by
  induction m with
  | nil => simp [mapAssign]
  | cons e rest ih =>
    obtain ⟨k0, v0⟩ := e
    by_cases h : k0 = k
    · simp [mapAssign, h]
    · simp [mapAssign, h, ih]

/-! ## Positions in the tree -/

theorem nodeAt_obj_cons {ν : Type} (m : Container ν) (t : String) (ts : List String) :
    nodeAt (Value.obj m) (t :: ts) = (mapIndex m t).bind (fun child => nodeAt child ts) := by
  cases h : mapIndex m t <;> simp [nodeAt, h]

theorem nodeAt_append {ν : Type} (p q : List String) (cur : Value ν) :
    nodeAt cur (p ++ q) = (nodeAt cur p).bind (fun x => nodeAt x q) := by
  induction p generalizing cur with
  | nil => simp [nodeAt]
  | cons t ts ih =>
    cases cur with
    | obj m =>
      rw [List.cons_append, nodeAt_obj_cons, nodeAt_obj_cons]
      cases h : mapIndex m t with
      | none => simp
      | some child => simp [ih]
    | null => simp [nodeAt]
    | bool b => simp [nodeAt]
    | num n => simp [nodeAt]
    | str s => simp [nodeAt]
    | arr xs => simp [nodeAt]

theorem nodeAt_snoc {ν : Type} (pos : List String) (k : String) (cur : Value ν)
    (c : Container ν) (h : nodeAt cur pos = some (Value.obj c)) :
    nodeAt cur (pos ++ [k]) = mapIndex c k := by
  rw [nodeAt_append, h]
  simp only [Option.bind_eq_bind, Option.some_bind, nodeAt_obj_cons]
  cases mapIndex c k <;> simp [nodeAt]

theorem updateAt_of_nodeAt {ν : Type} (f : Container ν → Container ν) (pos : List String)
    (m c : Container ν) (h : nodeAt (Value.obj m) pos = some (Value.obj c)) :
    ∃ m2, updateAt f m pos = some m2 ∧ nodeAt (Value.obj m2) pos = some (Value.obj (f c)) := by
  induction pos generalizing m with
  | nil =>
    simp only [nodeAt, Option.some.injEq, Value.obj.injEq] at h
    subst h
    exact ⟨f m, rfl, rfl⟩
  | cons t ts ih =>
    rw [nodeAt_obj_cons] at h
    cases hm : mapIndex m t with
    | none => simp [hm] at h
    | some child =>
      simp only [hm, Option.bind_eq_bind, Option.some_bind] at h
      cases child with
      | obj ch =>
        obtain ⟨ch2, h1, h2⟩ := ih ch h
        refine ⟨mapAssign m t (Value.obj ch2), ?_, ?_⟩
        · simp [updateAt, hm, h1]
        · rw [nodeAt_obj_cons, mapIndex_mapAssign_same]
          simpa using h2
      | null => cases ts <;> simp [nodeAt] at h
      | bool b => cases ts <;> simp [nodeAt] at h
      | num n => cases ts <;> simp [nodeAt] at h
      | str s => cases ts <;> simp [nodeAt] at h
      | arr xs => cases ts <;> simp [nodeAt] at h

theorem updateAt_absorb {ν : Type} (f g : Container ν → Container ν)
    (hgf : ∀ c, g (f c) = f c) (pos : List String) (m m2 : Container ν)
    (h : updateAt f m pos = some m2) : updateAt g m2 pos = some m2 := by
  induction pos generalizing m m2 with
  | nil =>
    simp only [updateAt, Option.some.injEq] at h
    subst h
    simp [updateAt, hgf]
  | cons t ts ih =>
    simp only [updateAt] at h
    cases hm : mapIndex m t with
    | none => simp [hm] at h
    | some child =>
      cases child with
      | obj ch =>
        simp only [hm] at h
        cases hu : updateAt f ch ts with
        | none => simp [hu] at h
        | some ch2 =>
          simp only [hu, Option.some.injEq] at h
          subst h
          simp [updateAt, mapIndex_mapAssign_same, ih ch ch2 hu, mapAssign_mapAssign]
      | null => simp [hm] at h
      | bool b => simp [hm] at h
      | num n => simp [hm] at h
      | str s => simp [hm] at h
      | arr xs => simp [hm] at h

/-! ## Traversal -/

theorem traverse_found {ν : Type} (spl : Nat) (q : List String) (cur x : Value ν)
    (w : List String) (h : nodeAt cur q = some x) :
    traverse spl cur w q = Except.ok (TraversalResult.mk x [] (w ++ q)) := by
  induction q generalizing cur w with
  | nil =>
    simp only [nodeAt, Option.some.injEq] at h
    subst h
    simp [traverse]
  | cons t ts ih =>
    cases cur with
    | obj m =>
      rw [nodeAt_obj_cons] at h
      cases hm : mapIndex m t with
      | none => simp [hm] at h
      | some child =>
        simp only [hm, Option.bind_eq_bind, Option.some_bind] at h
        simp [traverse, hm, ih child (w ++ [t]) h]
    | null => simp [nodeAt] at h
    | bool b => simp [nodeAt] at h
    | num n => simp [nodeAt] at h
    | str s => simp [nodeAt] at h
    | arr xs => simp [nodeAt] at h

theorem traverse_missing {ν : Type} (spl : Nat) (pos : List String) (k : String)
    (cur : Value ν) (c : Container ν) (w : List String)
    (h : nodeAt cur pos = some (Value.obj c)) (hk : mapIndex c k = none) :
    traverse spl cur w (pos ++ [k]) =
      if 1 ≤ spl then Except.ok (TraversalResult.mk (Value.obj c) [k] (w ++ pos))
      else Except.error ErrorKind.PathNotFound := by
  induction pos generalizing cur w with
  | nil =>
    simp only [nodeAt, Option.some.injEq] at h
    subst h
    simp [traverse, hk]
  | cons t ts ih =>
    cases cur with
    | obj m =>
      rw [nodeAt_obj_cons] at h
      cases hm : mapIndex m t with
      | none => simp [hm] at h
      | some child =>
        simp only [hm, Option.bind_eq_bind, Option.some_bind] at h
        simp [traverse, hm, ih child (w ++ [t]) h]
    | null => simp [nodeAt] at h
    | bool b => simp [nodeAt] at h
    | num n => simp [nodeAt] at h
    | str s => simp [nodeAt] at h
    | arr xs => simp [nodeAt] at h

theorem traverse_frame {ν : Type} (f : Container ν → Container ν) (k : String)
    (hf : ∀ (c : Container ν) (k1 : String), k1 ≠ k → mapIndex (f c) k1 = mapIndex c k1)
    (pos : List String) (m m2 : Container ν) (q w : List String)
    (hu : updateAt f m pos = some m2)
    (hpq : ¬ (pos ++ [k]) <+: q) (hqp : ¬ q <+: (pos ++ [k])) :
    traverse 0 (Value.obj m2) w q = traverse 0 (Value.obj m) w q := by
  induction pos generalizing m m2 q w with
  | nil =>
    simp only [updateAt, Option.some.injEq] at hu
    subst hu
    cases q with
    | nil => exact absurd List.nil_prefix hqp
    | cons a rest =>
      have hak : a ≠ k := by
        intro e
        subst e
        exact hpq (by simp)
      simp [traverse, hf m a hak]
  | cons t ts ih =>
    cases q with
    | nil => exact absurd List.nil_prefix hqp
    | cons a rest =>
      simp only [updateAt] at hu
      cases hm : mapIndex m t with
      | none => simp [hm] at hu
      | some child =>
        cases child with
        | obj ch =>
          simp only [hm] at hu
          cases hc : updateAt f ch ts with
          | none => simp [hc] at hu
          | some ch2 =>
            simp only [hc, Option.some.injEq] at hu
            subst hu
            by_cases hat : a = t
            · subst hat
              have h1 : ¬ (ts ++ [k]) <+: rest := by
                intro e
                exact hpq (by simpa [List.cons_prefix_cons] using e)
              have h2 : ¬ rest <+: (ts ++ [k]) := by
                intro e
                exact hqp (by simpa [List.cons_prefix_cons] using e)
              simp [traverse, hm, mapIndex_mapAssign_same, ih ch ch2 rest (w ++ [a]) hc h1 h2]
            · simp [traverse, mapIndex_mapAssign_ne m t a (Value.obj ch2) hat]
        | null => simp [hm] at hu
        | bool b => simp [hm] at hu
        | num n => simp [hm] at hu
        | str s => simp [hm] at hu
        | arr xs => simp [hm] at hu

/-! ## The handler on the contexts the router builds -/

theorem contextPath_snoc (pos : List String) (k : String) :
    contextPath (pos ++ [k]) = pos ++ [k] := by
  cases pos <;> rfl

theorem checkEmpty_iff {ν : Type} (c : Context ν) :
    (c.Path.length = 1 ∧ c.Path.head? = some "") ↔ c.Path = [""] := by
  cases hp : c.Path with
  | nil => simp
  | cons a rest => cases rest <;> simp

theorem checkEmpty_pass {ν : Type} (c : Context ν) (h : c.Path ≠ [""]) :
    checkEmpty c = ([], true) := by
  unfold checkEmpty
  rw [if_neg]
  rw [checkEmpty_iff]
  exact h

theorem checkEmpty_reject {ν : Type} (c : Context ν) (h : c.Path = [""]) :
    checkEmpty c = ([Reply.error "Bad Request: key is required" 400], false) := by
  unfold checkEmpty
  rw [if_pos]
  rw [checkEmpty_iff]
  exact h

theorem subpathLimit_GET : subpathLimit "GET" = 0 := by decide

theorem subpathLimit_PUT : subpathLimit "PUT" = 1 := by decide

theorem subpathLimit_DELETE : subpathLimit "DELETE" = 0 := by decide

theorem primaryHandler_PUT {ν : Type} (c : Context ν) (v : Value ν) (saveErr : Option String)
    (ref : List String) (k : String) (hp : c.Path ≠ [""])
    (ht : putTarget c = some ([], some ref)) (hk : c.Path.getLast? = some k) :
    primaryHandler "PUT" c (Except.ok v) saveErr =
      Outcome.mk (throughRef c.RootTree ref (fun m => mapAssign m k v))
        (match saveErr with
          | none => [Reply.json (successBody "value written")]
          | some err => [Reply.error ("Error saving root tree: " ++ err) 500,
                         Reply.error "Error saving value" 500])
        true false := by
  have h1 : ¬ ("PUT" = "GET") := by decide
  cases saveErr <;>
    simp [primaryHandler, h1, checkEmpty_pass c hp, ht, hk, saveRt, jsonOutput]

theorem primaryHandler_DELETE {ν : Type} (c : Context ν) (body : Except String (Value ν))
    (saveErr : Option String) (po : List String) (k : String) (hp : c.Path ≠ [""])
    (hw : WalkBack c 1 = Except.ok po) (hk : c.Path.getLast? = some k) :
    primaryHandler "DELETE" c body saveErr =
      Outcome.mk (throughRef c.RootTree po (fun m => mapDelete m k))
        (match saveErr with
          | none => [Reply.json (successBody "value deleted")]
          | some err => [Reply.error ("Error saving root tree: " ++ err) 500,
                         Reply.error "Error deleting value" 500])
        true false := by
  have h1 : ¬ ("DELETE" = "GET") := by decide
  have h2 : ¬ ("DELETE" = "PUT") := by decide
  cases saveErr <;>
    simp [primaryHandler, h1, h2, checkEmpty_pass c hp, hw, hk, saveRt, jsonOutput]

theorem WRITE_accepted {ν : Type} (root c : Container ν) (pos : List String) (k : String)
    (v : Value ν) (saveErr : Option String)
    (hpar : nodeAt (Value.obj root) pos = some (Value.obj c)) (hne : pos ++ [k] ≠ [""]) :
    WRITE root (pos ++ [k]) v saveErr =
      Outcome.mk (throughRef root pos (fun m => mapAssign m k v))
        (match saveErr with
          | none => [Reply.json (successBody "value written")]
          | some err => [Reply.error ("Error saving root tree: " ++ err) 500,
                         Reply.error "Error saving value" 500])
        true false := by
  unfold WRITE ServeHTTP
  rw [subpathLimit_PUT, contextPath_snoc]
  cases hk : mapIndex c k with
  | none =>
    rw [traverse_missing 1 pos k (Value.obj root) c [] hpar hk]
    simp only [le_refl, if_true, List.nil_append]
    exact primaryHandler_PUT _ v saveErr pos k hne (by simp [putTarget]) (by simp)
  | some x =>
    have hx : nodeAt (Value.obj root) (pos ++ [k]) = some x := by
      rw [nodeAt_snoc pos k (Value.obj root) c hpar, hk]
    rw [traverse_found 1 (pos ++ [k]) (Value.obj root) x [] hx]
    simp only [List.nil_append]
    exact primaryHandler_PUT _ v saveErr pos k hne
      (by simp [putTarget, WalkBack]) (by simp)

theorem DELETE_accepted {ν : Type} (root : Container ν) (x : Value ν) (pos : List String)
    (k : String) (saveErr : Option String)
    (hx : nodeAt (Value.obj root) (pos ++ [k]) = some x) (hne : pos ++ [k] ≠ [""]) :
    DELETE root (pos ++ [k]) saveErr =
      Outcome.mk (throughRef root pos (fun m => mapDelete m k))
        (match saveErr with
          | none => [Reply.json (successBody "value deleted")]
          | some err => [Reply.error ("Error saving root tree: " ++ err) 500,
                         Reply.error "Error deleting value" 500])
        true false := by
  unfold DELETE ServeHTTP
  rw [subpathLimit_DELETE, contextPath_snoc,
    traverse_found 0 (pos ++ [k]) (Value.obj root) x [] hx]
  simp only [List.nil_append]
  exact primaryHandler_DELETE _ _ saveErr pos k hne (by simp [WalkBack]) (by simp)

theorem READ_found {ν : Type} (root : Container ν) (q : List String) (x : Value ν)
    (hx : nodeAt (Value.obj root) q = some x) :
    READ root q = Outcome.mk root [Reply.json x] false false := by
  unfold READ ServeHTTP
  rw [subpathLimit_GET, traverse_found 0 q (Value.obj root) x [] hx]
  simp [primaryHandler, jsonOutput]

theorem READ_missing {ν : Type} (root c : Container ν) (pos : List String) (k : String)
    (hpar : nodeAt (Value.obj root) pos = some (Value.obj c)) (hk : mapIndex c k = none) :
    READ root (pos ++ [k]) =
      Outcome.mk root [Reply.error ErrorKind.PathNotFound.Error ErrorKind.PathNotFound.Code]
        false false := by
  unfold READ ServeHTTP
  rw [subpathLimit_GET, traverse_missing 0 pos k (Value.obj root) c [] hpar hk]
  simp [errorHandler]

theorem throughRef_of_nodeAt {ν : Type} (f : Container ν → Container ν) (pos : List String)
    (root c : Container ν) (h : nodeAt (Value.obj root) pos = some (Value.obj c)) :
    updateAt f root pos = some (throughRef root pos f) ∧
      nodeAt (Value.obj (throughRef root pos f)) pos = some (Value.obj (f c)) := by
  obtain ⟨m2, h1, h2⟩ := updateAt_of_nodeAt f pos root c h
  simp [throughRef, h1, h2]

theorem nodeAt_snoc_some {ν : Type} (pos : List String) (k : String) (cur x : Value ν)
    (h : nodeAt cur (pos ++ [k]) = some x) :
    ∃ c, nodeAt cur pos = some (Value.obj c) ∧ mapIndex c k = some x := by
  rw [nodeAt_append] at h
  cases hy : nodeAt cur pos with
  | none => simp [hy] at h
  | some y =>
    simp only [hy, Option.bind_eq_bind, Option.some_bind] at h
    cases y with
    | obj c =>
      refine ⟨c, rfl, ?_⟩
      rw [nodeAt_obj_cons] at h
      cases hk : mapIndex c k with
      | none => simp [hk] at h
      | some z => simpa [hk, nodeAt] using h
    | null => simp [nodeAt] at h
    | bool b => simp [nodeAt] at h
    | num n => simp [nodeAt] at h
    | str s => simp [nodeAt] at h
    | arr xs => simp [nodeAt] at h

theorem traverse_absent {ν : Type} (spl : Nat) (pos : List String) (t : String)
    (ts : List String) (cur : Value ν) (c : Container ν) (w : List String)
    (h : nodeAt cur pos = some (Value.obj c)) (hk : mapIndex c t = none) :
    traverse spl cur w (pos ++ t :: ts) =
      if 1 < (t :: ts).length then
        if spl = 0 then Except.error ErrorKind.PathNotFound
        else Except.error ErrorKind.SubpathTooDeep
      else if (t :: ts).length ≤ spl then
        Except.ok (TraversalResult.mk (Value.obj c) (t :: ts) (w ++ pos))
      else Except.error ErrorKind.PathNotFound := by
  induction pos generalizing cur w with
  | nil =>
    simp only [nodeAt, Option.some.injEq] at h
    subst h
    simp [traverse, hk]
  | cons a rest ih =>
    cases cur with
    | obj m =>
      rw [nodeAt_obj_cons] at h
      cases hm : mapIndex m a with
      | none => simp [hm] at h
      | some child =>
        simp only [hm, Option.bind_eq_bind, Option.some_bind] at h
        simp [traverse, hm, ih child (w ++ [a]) h]
    | null => simp [nodeAt] at h
    | bool b => simp [nodeAt] at h
    | num n => simp [nodeAt] at h
    | str s => simp [nodeAt] at h
    | arr xs => simp [nodeAt] at h

theorem traverse_leaf {ν : Type} (spl : Nat) (pos : List String) (t : String)
    (ts : List String) (cur x : Value ν) (w : List String)
    (h : nodeAt cur pos = some x) (hx : ∀ c, x ≠ Value.obj c) :
    traverse spl cur w (pos ++ t :: ts) = Except.error ErrorKind.NotATraversableNode := by
  induction pos generalizing cur w with
  | nil =>
    simp only [nodeAt, Option.some.injEq] at h
    subst h
    cases cur with
    | obj m => exact absurd rfl (hx m)
    | null => simp [traverse]
    | bool b => simp [traverse]
    | num n => simp [traverse]
    | str s => simp [traverse]
    | arr xs => simp [traverse]
  | cons a rest ih =>
    cases cur with
    | obj m =>
      rw [nodeAt_obj_cons] at h
      cases hm : mapIndex m a with
      | none => simp [hm] at h
      | some child =>
        simp only [hm, Option.bind_eq_bind, Option.some_bind] at h
        simp [traverse, hm, ih child (w ++ [a]) h]
    | null => simp [nodeAt] at h
    | bool b => simp [nodeAt] at h
    | num n => simp [nodeAt] at h
    | str s => simp [nodeAt] at h
    | arr xs => simp [nodeAt] at h

theorem traverse_inv {ν : Type} (spl : Nat) (q : List String) (cur : Value ν)
    (w : List String) (tr : TraversalResult ν) (h : traverse spl cur w q = Except.ok tr) :
    (nodeAt cur q = some tr.CurrentObj ∧ tr.Subpath = [] ∧ tr.walked = w ++ q) ∨
    (∃ pos k c, q = pos ++ [k] ∧ nodeAt cur pos = some (Value.obj c) ∧ mapIndex c k = none ∧
      1 ≤ spl ∧ tr = TraversalResult.mk (Value.obj c) [k] (w ++ pos)) := by
  induction q generalizing cur w with
  | nil =>
    simp only [traverse, Except.ok.injEq] at h
    subst h
    left
    simp [nodeAt]
  | cons t ts ih =>
    cases cur with
    | obj m =>
      cases hm : mapIndex m t with
      | some child =>
        simp only [traverse, hm] at h
        rcases ih child (w ++ [t]) h with ⟨h1, h2, h3⟩ | ⟨pos, k, c, h1, h2, h3, h4, h5⟩
        · left
          refine ⟨?_, h2, ?_⟩
          · rw [nodeAt_obj_cons, hm]
            simpa using h1
          · simpa using h3
        · right
          refine ⟨t :: pos, k, c, ?_, ?_, h3, h4, ?_⟩
          · simp [h1]
          · rw [nodeAt_obj_cons, hm]
            simpa using h2
          · simpa using h5
      | none =>
        simp only [traverse, hm] at h
        by_cases hlen : 1 < (t :: ts).length
        · rw [if_pos hlen] at h
          split at h <;> cases h
        · rw [if_neg hlen] at h
          have hts : ts = [] := by
            cases ts with
            | nil => rfl
            | cons a rest => simp at hlen
          subst hts
          by_cases hspl : 1 ≤ spl
          · right
            refine ⟨[], t, m, rfl, rfl, hm, hspl, ?_⟩
            simp only [List.length_singleton, hspl, if_true, Except.ok.injEq] at h
            simpa using h.symm
          · simp [hspl] at h
    | null => simp [traverse] at h
    | bool b => simp [traverse] at h
    | num n => simp [traverse] at h
    | str s => simp [traverse] at h
    | arr xs => simp [traverse] at h

theorem traverse_unresolved {ν : Type} (q : List String) (cur : Value ν) (w : List String)
    (h : nodeAt cur q = none) :
    traverse 0 cur w q = Except.error ErrorKind.PathNotFound ∨
      traverse 0 cur w q = Except.error ErrorKind.NotATraversableNode := by
  induction q generalizing cur w with
  | nil => simp [nodeAt] at h
  | cons t ts ih =>
    cases cur with
    | obj m =>
      cases hm : mapIndex m t with
      | some child =>
        rw [nodeAt_obj_cons, hm] at h
        simp only [traverse, hm]
        exact ih child (w ++ [t]) (by simpa using h)
      | none =>
        left
        simp only [traverse, hm]
        by_cases hlen : 1 < (t :: ts).length
        · rw [if_pos hlen]
          simp
        · rw [if_neg hlen, if_neg (by simp)]
    | null => right; simp [traverse]
    | bool b => right; simp [traverse]
    | num n => right; simp [traverse]
    | str s => right; simp [traverse]
    | arr xs => right; simp [traverse]

/-! ## Requests that are turned down -/

theorem primaryHandler_PUT_root {ν : Type} (c : Context ν) (body : Except String (Value ν))
    (saveErr : Option String) (h : c.Path = [""]) :
    primaryHandler "PUT" c body saveErr =
      Outcome.mk c.RootTree [Reply.error "Bad Request: key is required" 400] false false := by
  have h1 : ¬ ("PUT" = "GET") := by decide
  simp [primaryHandler, h1, checkEmpty_reject c h]

theorem primaryHandler_DELETE_root {ν : Type} (c : Context ν) (body : Except String (Value ν))
    (saveErr : Option String) (h : c.Path = [""]) :
    primaryHandler "DELETE" c body saveErr =
      Outcome.mk c.RootTree [Reply.error "Bad Request: key is required" 400] false false := by
  have h1 : ¬ ("DELETE" = "GET") := by decide
  have h2 : ¬ ("DELETE" = "PUT") := by decide
  simp [primaryHandler, h1, h2, checkEmpty_reject c h]

theorem primaryHandler_unsaved {ν : Type} (method : String) (c : Context ν)
    (body : Except String (Value ν)) (saveErr : Option String)
    (h : (primaryHandler method c body saveErr).saved = false) :
    (primaryHandler method c body saveErr).RootTree = c.RootTree := by
  unfold primaryHandler at h ⊢
  repeat' split
  all_goals first
    | rfl
    | (exfalso; revert h; simp_all)

theorem primaryHandler_no_panic {ν : Type} (c : Context ν) (body : Except String (Value ν))
    (saveErr : Option String) (ref : List String) (k : String)
    (ht : putTarget c = some ([], some ref)) (hk : c.Path.getLast? = some k) :
    (primaryHandler "PUT" c body saveErr).panicked = false := by
  have h1 : ¬ ("PUT" = "GET") := by decide
  unfold primaryHandler
  simp only [h1, if_false, if_true, ht, hk]
  repeat' split
  all_goals rfl

/-! ## What a request can do to the tree -/

theorem path_concat (p : List String) (hp : p ≠ []) : ∃ pos k, p = pos ++ [k] := by
  rcases List.eq_nil_or_concat p with h | ⟨pos, k, h⟩
  · exact absurd h hp
  · exact ⟨pos, k, by rw [h, List.concat_eq_append]⟩

theorem nodeAt_of_append {ν : Type} (a b : List String) (cur x : Value ν)
    (h : nodeAt cur (a ++ b) = some x) : ∃ y, nodeAt cur a = some y := by
  rw [nodeAt_append] at h
  cases hy : nodeAt cur a with
  | none => simp [hy] at h
  | some y => exact ⟨y, rfl⟩

theorem traverse_error_kind {ν : Type} (spl : Nat) (q : List String) (cur : Value ν)
    (w : List String) (e : ErrorKind) (h : traverse spl cur w q = Except.error e) :
    (e = ErrorKind.PathNotFound ∧ spl = 0) ∨ (e = ErrorKind.SubpathTooDeep ∧ 0 < spl) ∨
      e = ErrorKind.NotATraversableNode := by
  induction q generalizing cur w with
  | nil => simp [traverse] at h
  | cons t ts ih =>
    cases cur with
    | obj m =>
      cases hm : mapIndex m t with
      | some child =>
        simp only [traverse, hm] at h
        exact ih child (w ++ [t]) h
      | none =>
        simp only [traverse, hm] at h
        by_cases hlen : 1 < (t :: ts).length
        · rw [if_pos hlen] at h
          by_cases h0 : spl = 0
          · rw [if_pos h0] at h
            exact Or.inl ⟨(Except.error.inj h).symm, h0⟩
          · rw [if_neg h0] at h
            exact Or.inr (Or.inl ⟨(Except.error.inj h).symm, Nat.pos_of_ne_zero h0⟩)
        · rw [if_neg hlen] at h
          by_cases hs : (t :: ts).length ≤ spl
          · rw [if_pos hs] at h
            cases h
          · rw [if_neg hs] at h
            refine Or.inl ⟨(Except.error.inj h).symm, ?_⟩
            simp only [List.length_cons] at hs hlen
            omega
    | null => right; right; simp only [traverse] at h; exact (Except.error.inj h).symm
    | bool b => right; right; simp only [traverse] at h; exact (Except.error.inj h).symm
    | num n => right; right; simp only [traverse] at h; exact (Except.error.inj h).symm
    | str s => right; right; simp only [traverse] at h; exact (Except.error.inj h).symm
    | arr xs => right; right; simp only [traverse] at h; exact (Except.error.inj h).symm

theorem ServeHTTP_error {ν : Type} (root : Container ν) (method : String)
    (target : List String) (body : Except String (Value ν)) (saveErr : Option String)
    (e : ErrorKind)
    (h : traverse (subpathLimit method) (Value.obj root) [] target = Except.error e) :
    ServeHTTP root method target body saveErr = Outcome.mk root (errorHandler e) false false := by
  unfold ServeHTTP
  rw [h]

theorem ServeHTTP_ok {ν : Type} (root : Container ν) (method : String)
    (target : List String) (body : Except String (Value ν)) (saveErr : Option String)
    (tr : TraversalResult ν)
    (h : traverse (subpathLimit method) (Value.obj root) [] target = Except.ok tr) :
    ServeHTTP root method target body saveErr =
      primaryHandler method
        (Context.mk root tr.CurrentObj (contextPath target) tr.Subpath tr.walked none)
        body saveErr := by
  unfold ServeHTTP
  rw [h]

theorem ServeHTTP_unsaved {ν : Type} (root : Container ν) (method : String)
    (target : List String) (body : Except String (Value ν)) (saveErr : Option String)
    (h : (ServeHTTP root method target body saveErr).saved = false) :
    (ServeHTTP root method target body saveErr).RootTree = root := by
  unfold ServeHTTP at h ⊢
  cases hr : traverse (subpathLimit method) (Value.obj root) [] target with
  | error e => rfl
  | ok tr =>
    rw [hr] at h
    exact primaryHandler_unsaved method _ body saveErr h

theorem traverse_deep {ν : Type} (spl : Nat) (q : List String) (t : String)
    (ts : List String) (cur : Value ν) (w : List String) (hspl : 0 < spl) (hts : ts ≠ [])
    (h : nodeAt cur (q ++ [t]) = none) :
    traverse spl cur w (q ++ t :: ts) = Except.error ErrorKind.SubpathTooDeep ∨
      traverse spl cur w (q ++ t :: ts) = Except.error ErrorKind.NotATraversableNode := by
  cases hr : traverse spl cur w (q ++ t :: ts) with
  | error e =>
    rcases traverse_error_kind spl _ cur w e hr with ⟨_, h0⟩ | ⟨h1, _⟩ | h1
    · omega
    · left; rw [h1]
    · right; rw [h1]
  | ok tr =>
    exfalso
    have hsplit : q ++ t :: ts = (q ++ [t]) ++ ts := by simp
    rcases traverse_inv spl _ cur w tr hr with ⟨h1, _, _⟩ | ⟨pos, k, c, h1, h2, _, _, _⟩
    · rw [hsplit] at h1
      obtain ⟨y, hy⟩ := nodeAt_of_append _ _ cur _ h1
      rw [h] at hy
      cases hy
    · obtain ⟨ts1, k1, hk1⟩ := path_concat ts hts
      subst hk1
      have h3 : (q ++ t :: ts1) ++ [k1] = pos ++ [k] := by
        rw [← h1]
        simp
      have h4 : q ++ t :: ts1 = pos := List.append_inj_left h3 (by
        have hl := congrArg List.length h3
        simp only [List.length_append, List.length_cons, List.length_nil] at hl ⊢
        omega)
      rw [← h4] at h2
      have h5 : q ++ t :: ts1 = (q ++ [t]) ++ ts1 := by simp
      rw [h5] at h2
      obtain ⟨y, hy⟩ := nodeAt_of_append _ _ cur _ h2
      rw [h] at hy
      cases hy

theorem WRITE_cases {ν : Type} (root : Container ν) (p : List String) (v : Value ν)
    (saveErr : Option String) :
    (WRITE root p v saveErr).RootTree = root ∨
      ∃ pos k c, p = pos ++ [k] ∧ nodeAt (Value.obj root) pos = some (Value.obj c) ∧
        updateAt (fun m => mapAssign m k v) root pos = some (WRITE root p v saveErr).RootTree := by
  by_cases hs : (WRITE root p v saveErr).saved = false
  · left
    exact ServeHTTP_unsaved root "PUT" p _ saveErr hs
  · right
    cases hr : traverse (subpathLimit "PUT") (Value.obj root) [] p with
    | error e =>
      exfalso
      apply hs
      unfold WRITE
      rw [ServeHTTP_error root "PUT" p _ saveErr e hr]
    | ok tr =>
      have hroot : p ≠ [""] ∧ p ≠ [] := by
        constructor
        · intro h
          apply hs
          subst h
          unfold WRITE
          rw [ServeHTTP_ok root "PUT" _ _ saveErr tr hr, primaryHandler_PUT_root _ _ _ rfl]
        · intro h
          apply hs
          subst h
          unfold WRITE
          rw [ServeHTTP_ok root "PUT" _ _ saveErr tr hr, primaryHandler_PUT_root _ _ _ rfl]
      have hpar : ∃ pos k c, p = pos ++ [k] ∧
          nodeAt (Value.obj root) pos = some (Value.obj c) := by
        rcases traverse_inv _ p _ [] tr hr with ⟨h1, _, _⟩ | ⟨pos, k, c, h1, h2, _, _, _⟩
        · obtain ⟨pos, k, hpk⟩ := path_concat p hroot.2
          rw [hpk] at h1
          obtain ⟨c, hc, _⟩ := nodeAt_snoc_some pos k _ _ h1
          exact ⟨pos, k, c, hpk, hc⟩
        · exact ⟨pos, k, c, h1, h2⟩
      obtain ⟨pos, k, c, hpk, hc⟩ := hpar
      subst hpk
      refine ⟨pos, k, c, rfl, hc, ?_⟩
      rw [WRITE_accepted root c pos k v saveErr hc hroot.1]
      exact (throughRef_of_nodeAt _ pos root c hc).1

theorem DELETE_cases {ν : Type} (root : Container ν) (p : List String)
    (saveErr : Option String) :
    (DELETE root p saveErr).RootTree = root ∨
      ∃ pos k c, p = pos ++ [k] ∧ nodeAt (Value.obj root) pos = some (Value.obj c) ∧
        updateAt (fun m => mapDelete m k) root pos = some (DELETE root p saveErr).RootTree := by
  by_cases hs : (DELETE root p saveErr).saved = false
  · left
    exact ServeHTTP_unsaved root "DELETE" p _ saveErr hs
  · right
    cases hr : traverse (subpathLimit "DELETE") (Value.obj root) [] p with
    | error e =>
      exfalso
      apply hs
      unfold DELETE
      rw [ServeHTTP_error root "DELETE" p _ saveErr e hr]
    | ok tr =>
      have hroot : p ≠ [""] ∧ p ≠ [] := by
        constructor
        · intro h
          apply hs
          subst h
          unfold DELETE
          rw [ServeHTTP_ok root "DELETE" _ _ saveErr tr hr, primaryHandler_DELETE_root _ _ _ rfl]
        · intro h
          apply hs
          subst h
          unfold DELETE
          rw [ServeHTTP_ok root "DELETE" _ _ saveErr tr hr, primaryHandler_DELETE_root _ _ _ rfl]
      rw [subpathLimit_DELETE] at hr
      rcases traverse_inv _ p _ [] tr hr with ⟨h1, _, _⟩ | ⟨_, _, _, _, _, _, h4, _⟩
      · obtain ⟨pos, k, hpk⟩ := path_concat p hroot.2
        subst hpk
        obtain ⟨c, hc, _⟩ := nodeAt_snoc_some pos k _ _ h1
        refine ⟨pos, k, c, rfl, hc, ?_⟩
        rw [DELETE_accepted root _ pos k saveErr h1 hroot.1]
        exact (throughRef_of_nodeAt _ pos root c hc).1
      · omega

theorem READ_replies_congr {ν : Type} (a b : Container ν) (q : List String)
    (h : traverse 0 (Value.obj a) [] q = traverse 0 (Value.obj b) [] q) :
    (READ a q).replies = (READ b q).replies := by
  unfold READ ServeHTTP
  rw [subpathLimit_GET, h]
  cases traverse 0 (Value.obj b) [] q <;> simp [primaryHandler]

theorem putTarget_resolved {ν : Type} (root : Container ν) (p : List String)
    (tr : TraversalResult ν) (hp : p ≠ [])
    (htr : traverse (subpathLimit "PUT") (Value.obj root) [] p = Except.ok tr) :
    ∃ parent k, nodeAt (Value.obj root) p.dropLast = some (Value.obj parent) ∧
      (contextPath p).getLast? = some k ∧
      putTarget (Context.mk root tr.CurrentObj (contextPath p) tr.Subpath tr.walked none) =
        some ([], some p.dropLast) ∧
      WalkBack (Context.mk root tr.CurrentObj (contextPath p) [] p none) 1 =
        Except.ok p.dropLast ∧
      (tr.Subpath = [] → tr.walked = p) ∧
      (tr.Subpath ≠ [] → tr.CurrentObj = Value.obj parent ∧ tr.walked = p.dropLast) := by
  obtain ⟨pos, k, rfl⟩ := path_concat p hp
  rw [subpathLimit_PUT] at htr
  rw [List.dropLast_concat, contextPath_snoc]
  rcases traverse_inv 1 _ _ [] tr htr with ⟨h1, h2, h3⟩ | ⟨pos1, k1, c, h1, h2, _, _, h5⟩
  · obtain ⟨c, hc, _⟩ := nodeAt_snoc_some pos k _ _ h1
    refine ⟨c, k, hc, by simp, ?_, by simp [WalkBack], ?_, ?_⟩
    · simp [putTarget, h2, h3, WalkBack]
    · intro _
      simpa using h3
    · intro hne
      exact absurd h2 hne
  · obtain ⟨hpos, hk⟩ := List.append_inj' h1 rfl
    subst hpos
    subst h5
    refine ⟨c, k, h2, by simp, ?_, by simp [WalkBack], ?_, ?_⟩
    · simp [putTarget]
    · intro h
      simp at h
    · intro _
      exact ⟨rfl, by simp⟩

/-! ## The claims -/

/-- C1 (round trip).  For every tree, every path `p` of depth at least 1 whose
parent container exists (`p` is not the handler's form `[""]` of the empty
path) and every value `v`: WRITE(p, v) with a successful save reports success,
and READ(p) on the resulting tree returns exactly `v`.  Nothing is assumed
about the final key, so this covers a key that was missing and a key that
already held a value. -/
theorem write_then_read {ν : Type} (root parent : Container ν) (p : List String)
    (v : Value ν) (hp : p ≠ []) (hroot : p ≠ [""])
    (hpar : nodeAt (Value.obj root) p.dropLast = some (Value.obj parent)) :
    (WRITE root p v none).replies = [Reply.json (successBody "value written")] ∧
    (WRITE root p v none).saved = true ∧
    READ (WRITE root p v none).RootTree p =
      Outcome.mk (WRITE root p v none).RootTree [Reply.json v] false false := by
  obtain ⟨pos, k, rfl⟩ := path_concat p hp
  rw [List.dropLast_concat] at hpar
  rw [WRITE_accepted root parent pos k v none hpar hroot]
  obtain ⟨_, h2⟩ := throughRef_of_nodeAt (fun m => mapAssign m k v) pos root parent hpar
  refine ⟨rfl, rfl, ?_⟩
  apply READ_found
  rw [nodeAt_snoc pos k _ _ h2, mapIndex_mapAssign_same]

theorem write_then_read_witness :
    (["foo", "bar"] ≠ ([] : List String) ∧ ["foo", "bar"] ≠ [""] ∧
      nodeAt (Value.obj fooTree) ["foo"] = some (Value.obj [])) ∧
    ((WRITE fooTree ["foo", "bar"] (Value.num 42) none).replies =
        [Reply.json (successBody "value written")] ∧
      (WRITE fooTree ["foo", "bar"] (Value.num 42) none).saved = true ∧
      READ (WRITE fooTree ["foo", "bar"] (Value.num 42) none).RootTree ["foo", "bar"] =
        Outcome.mk (WRITE fooTree ["foo", "bar"] (Value.num 42) none).RootTree
          [Reply.json (Value.num 42)] false false) :=
  ⟨⟨by decide, by decide, rfl⟩,
    write_then_read fooTree [] ["foo", "bar"] (Value.num 42) (by decide) (by decide) rfl⟩

/-- C2 (delete then read).  For every tree, every writable path `p` of depth at
least 1 and every value `v`: after WRITE(p, v) and DELETE(p), both saved
successfully and both reporting success, READ(p) fails with PathNotFound and
changes nothing. -/
theorem write_delete_read {ν : Type} (root parent : Container ν) (p : List String)
    (v : Value ν) (hp : p ≠ []) (hroot : p ≠ [""])
    (hpar : nodeAt (Value.obj root) p.dropLast = some (Value.obj parent)) :
    (WRITE root p v none).replies = [Reply.json (successBody "value written")] ∧
    (DELETE (WRITE root p v none).RootTree p none).replies =
      [Reply.json (successBody "value deleted")] ∧
    READ (DELETE (WRITE root p v none).RootTree p none).RootTree p =
      Outcome.mk (DELETE (WRITE root p v none).RootTree p none).RootTree
        (errorHandler ErrorKind.PathNotFound) false false := by
  obtain ⟨pos, k, rfl⟩ := path_concat p hp
  rw [List.dropLast_concat] at hpar
  rw [WRITE_accepted root parent pos k v none hpar hroot]
  obtain ⟨_, h2⟩ := throughRef_of_nodeAt (fun m => mapAssign m k v) pos root parent hpar
  have h3 : nodeAt (Value.obj (throughRef root pos (fun m => mapAssign m k v))) (pos ++ [k])
      = some v := by
    rw [nodeAt_snoc pos k _ _ h2, mapIndex_mapAssign_same]
  simp only
  rw [DELETE_accepted _ v pos k none h3 hroot]
  obtain ⟨_, h4⟩ := throughRef_of_nodeAt (fun m => mapDelete m k) pos _ _ h2
  refine ⟨trivial, rfl, ?_⟩
  exact READ_missing _ _ pos k h4 (mapIndex_mapDelete_same _ k)

theorem write_delete_read_witness :
    (["foo", "bar"] ≠ ([] : List String) ∧ ["foo", "bar"] ≠ [""] ∧
      nodeAt (Value.obj fooTree) ["foo"] = some (Value.obj [])) ∧
    ((WRITE fooTree ["foo", "bar"] (Value.num 7) none).replies =
        [Reply.json (successBody "value written")] ∧
      (DELETE (WRITE fooTree ["foo", "bar"] (Value.num 7) none).RootTree ["foo", "bar"] none).replies =
        [Reply.json (successBody "value deleted")] ∧
      READ (DELETE (WRITE fooTree ["foo", "bar"] (Value.num 7) none).RootTree
          ["foo", "bar"] none).RootTree ["foo", "bar"] =
        Outcome.mk (DELETE (WRITE fooTree ["foo", "bar"] (Value.num 7) none).RootTree
          ["foo", "bar"] none).RootTree (errorHandler ErrorKind.PathNotFound) false false) :=
  ⟨⟨by decide, by decide, rfl⟩,
    write_delete_read fooTree [] ["foo", "bar"] (Value.num 7) (by decide) (by decide) rfl⟩

/-- C3 (empty path rejection).  For every tree and value, WRITE([], v) and
DELETE([]) are answered with status 400 "Bad Request: key is required", leave
the tree as it was and do not call the save; and the handler answers so on
every context whose path is the single empty token, whatever else the context
holds. -/
theorem empty_path_rejected {ν : Type} (root : Container ν) (v : Value ν)
    (saveErr : Option String) (c : Context ν) (body : Except String (Value ν)) :
    WRITE root [] v saveErr =
      Outcome.mk root [Reply.error "Bad Request: key is required" 400] false false ∧
    DELETE root [] saveErr =
      Outcome.mk root [Reply.error "Bad Request: key is required" 400] false false ∧
    primaryHandler "PUT" (Context.mk c.RootTree c.CurrentObj [""] c.Subpath c.walked c.orphan)
        body saveErr =
      Outcome.mk c.RootTree [Reply.error "Bad Request: key is required" 400] false false ∧
    primaryHandler "DELETE" (Context.mk c.RootTree c.CurrentObj [""] c.Subpath c.walked c.orphan)
        body saveErr =
      Outcome.mk c.RootTree [Reply.error "Bad Request: key is required" 400] false false := by
  refine ⟨?_, ?_, ?_, ?_⟩
  · unfold WRITE
    rw [ServeHTTP_ok root "PUT" [] _ saveErr (TraversalResult.mk (Value.obj root) [] []) rfl]
    exact primaryHandler_PUT_root _ _ _ rfl
  · unfold DELETE
    rw [ServeHTTP_ok root "DELETE" [] _ saveErr (TraversalResult.mk (Value.obj root) [] []) rfl]
    exact primaryHandler_DELETE_root _ _ _ rfl
  · exact primaryHandler_PUT_root _ _ _ rfl
  · exact primaryHandler_DELETE_root _ _ _ rfl

/-- C4 (depth limit).  Under the limits READ 0, WRITE 1, DELETE 0: a WRITE
whose traversal stops at a token absent from an existing container with more
than one token left (the case of WRITE(["a","b","c"], v) with neither `a` nor
`a/b` present) fails with SubpathTooDeep, before any mutation or save; a READ
or DELETE whose path does not fully resolve is turned down with a traversal
error, tree unchanged and nothing saved; and every WRITE either leaves the
tree as it was or sets exactly the final key of its path in a container that
already existed, so it creates at most one new key.  (A path that runs into a
non-container is turned down with NotATraversableNode for all three
operations, as the non-container-descent property of section 8 says.) -/
theorem depth_limit {ν : Type} (root : Container ν) (v : Value ν) (saveErr : Option String) :
    (∀ (pos : List String) (c : Container ν) (t : String) (ts : List String), ts ≠ [] →
      nodeAt (Value.obj root) pos = some (Value.obj c) → mapIndex c t = none →
      WRITE root (pos ++ t :: ts) v saveErr =
        Outcome.mk root (errorHandler ErrorKind.SubpathTooDeep) false false) ∧
    (∀ (q : List String) (t : String) (ts : List String), ts ≠ [] →
      nodeAt (Value.obj root) (q ++ [t]) = none →
      WRITE root (q ++ t :: ts) v saveErr =
        Outcome.mk root (errorHandler ErrorKind.SubpathTooDeep) false false ∨
      WRITE root (q ++ t :: ts) v saveErr =
        Outcome.mk root (errorHandler ErrorKind.NotATraversableNode) false false) ∧
    (∀ (pos : List String) (x : Value ν) (t : String) (ts : List String),
      nodeAt (Value.obj root) pos = some x → (∀ c, x ≠ Value.obj c) →
      WRITE root (pos ++ t :: ts) v saveErr =
        Outcome.mk root (errorHandler ErrorKind.NotATraversableNode) false false ∧
      READ root (pos ++ t :: ts) =
        Outcome.mk root (errorHandler ErrorKind.NotATraversableNode) false false ∧
      DELETE root (pos ++ t :: ts) saveErr =
        Outcome.mk root (errorHandler ErrorKind.NotATraversableNode) false false) ∧
    (∀ (q : List String), nodeAt (Value.obj root) q = none →
      (READ root q = Outcome.mk root (errorHandler ErrorKind.PathNotFound) false false ∨
        READ root q =
          Outcome.mk root (errorHandler ErrorKind.NotATraversableNode) false false) ∧
      (DELETE root q saveErr =
          Outcome.mk root (errorHandler ErrorKind.PathNotFound) false false ∨
        DELETE root q saveErr =
          Outcome.mk root (errorHandler ErrorKind.NotATraversableNode) false false)) ∧
    (∀ (p : List String), (WRITE root p v saveErr).RootTree = root ∨
      ∃ pos k c, p = pos ++ [k] ∧ nodeAt (Value.obj root) pos = some (Value.obj c) ∧
        updateAt (fun m => mapAssign m k v) root pos =
          some (WRITE root p v saveErr).RootTree) := by
  refine ⟨?_, ?_, ?_, ?_, ?_⟩
  · intro pos c t ts hts hpar hk
    unfold WRITE
    apply ServeHTTP_error
    rw [traverse_absent _ pos t ts _ c [] hpar hk, if_pos, subpathLimit_PUT, if_neg (by decide)]
    cases ts with
    | nil => exact absurd rfl hts
    | cons a rest => simp
  · intro q t ts hts hq
    unfold WRITE
    rcases traverse_deep (subpathLimit "PUT") q t ts (Value.obj root) []
      (by rw [subpathLimit_PUT]; decide) hts hq with h | h
    · left
      exact ServeHTTP_error root "PUT" _ _ saveErr _ h
    · right
      exact ServeHTTP_error root "PUT" _ _ saveErr _ h
  · intro pos x t ts hx hleaf
    refine ⟨?_, ?_, ?_⟩
    · exact ServeHTTP_error root "PUT" _ _ saveErr _ (traverse_leaf _ pos t ts _ x [] hx hleaf)
    · exact ServeHTTP_error root "GET" _ _ none _ (traverse_leaf _ pos t ts _ x [] hx hleaf)
    · exact ServeHTTP_error root "DELETE" _ _ saveErr _ (traverse_leaf _ pos t ts _ x [] hx hleaf)
  · intro q hq
    constructor
    · unfold READ
      rcases traverse_unresolved q (Value.obj root) [] hq with h | h
      · left
        exact ServeHTTP_error root "GET" _ _ none _ (by rw [subpathLimit_GET]; exact h)
      · right
        exact ServeHTTP_error root "GET" _ _ none _ (by rw [subpathLimit_GET]; exact h)
    · unfold DELETE
      rcases traverse_unresolved q (Value.obj root) [] hq with h | h
      · left
        exact ServeHTTP_error root "DELETE" _ _ saveErr _ (by rw [subpathLimit_DELETE]; exact h)
      · right
        exact ServeHTTP_error root "DELETE" _ _ saveErr _ (by rw [subpathLimit_DELETE]; exact h)
  · intro p
    exact WRITE_cases root p v saveErr

theorem depth_limit_witness :
    (["b", "c"] ≠ ([] : List String) ∧
      nodeAt (Value.obj emptyTree) [] = some (Value.obj emptyTree) ∧
      mapIndex emptyTree "a" = none) ∧
    WRITE emptyTree ([] ++ "a" :: ["b", "c"]) (Value.num 1) none =
      Outcome.mk emptyTree (errorHandler ErrorKind.SubpathTooDeep) false false :=
  ⟨⟨by decide, rfl, rfl⟩,
    (depth_limit emptyTree (Value.num 1) none).1 [] emptyTree "a" ["b", "c"]
      (by decide) rfl rfl⟩

/-- What holds of turned-down requests on every context: a traversal error is
answered by `errorHandler` alone; an empty path, a malformed body, a failed
walk-back in DELETE and a failed container cast in PUT end the handler with the
tree unchanged and nothing saved; and a request that does not call the save
leaves the tree as it was. -/
theorem turned_down_unchanged {ν : Type} (root : Container ν) (method : String)
    (target : List String) (c : Context ν) (body : Except String (Value ν))
    (saveErr : Option String) :
    (∀ e, traverse (subpathLimit method) (Value.obj root) [] target = Except.error e →
      ServeHTTP root method target body saveErr =
        Outcome.mk root (errorHandler e) false false) ∧
    (c.Path = [""] →
      primaryHandler "PUT" c body saveErr =
        Outcome.mk c.RootTree [Reply.error "Bad Request: key is required" 400] false false ∧
      primaryHandler "DELETE" c body saveErr =
        Outcome.mk c.RootTree [Reply.error "Bad Request: key is required" 400] false false) ∧
    (∀ err, c.Path ≠ [""] →
      primaryHandler "PUT" c (Except.error err) saveErr =
        Outcome.mk c.RootTree
          [Reply.error ("Could not serialize request body: " ++ err) 400] false false) ∧
    (∀ e po, c.Path ≠ [""] → WalkBack c 1 = Except.error (e, po) →
      primaryHandler "DELETE" c body saveErr =
        Outcome.mk c.RootTree [Reply.error e.Error 500] false false) ∧
    (∀ b, c.Path ≠ [""] → c.Subpath ≠ [] → (∀ m, c.CurrentObj ≠ Value.obj m) →
      primaryHandler "PUT" c (Except.ok b) saveErr = Outcome.mk c.RootTree [] false true) ∧
    ((primaryHandler method c body saveErr).saved = false →
      (primaryHandler method c body saveErr).RootTree = c.RootTree) ∧
    ((ServeHTTP root method target body saveErr).saved = false →
      (ServeHTTP root method target body saveErr).RootTree = root) := by
  have h1 : ¬ ("PUT" = "GET") := by decide
  have h2 : ¬ ("DELETE" = "GET") := by decide
  have h3 : ¬ ("DELETE" = "PUT") := by decide
  refine ⟨?_, ?_, ?_, ?_, ?_, ?_, ?_⟩
  · intro e he
    exact ServeHTTP_error root method target body saveErr e he
  · intro hc
    exact ⟨primaryHandler_PUT_root c body saveErr hc, primaryHandler_DELETE_root c body saveErr hc⟩
  · intro err hc
    simp [primaryHandler, h1, checkEmpty_pass c hc]
  · intro e po hc hw
    simp [primaryHandler, h2, h3, checkEmpty_pass c hc, hw]
  · intro b hc hs hm
    have hl : c.Subpath.length ≠ 0 := by
      intro h0
      exact hs (List.length_eq_zero.mp h0)
    have hp : putTarget c = none := by
      unfold putTarget
      rw [if_neg hl]
      cases hco : c.CurrentObj with
      | obj m => exact absurd hco (hm m)
      | null => rfl
      | bool b => rfl
      | num n => rfl
      | str s => rfl
      | arr xs => rfl
    simp [primaryHandler, h1, checkEmpty_pass c hc, hp]
  · exact primaryHandler_unsaved method c body saveErr
  · exact ServeHTTP_unsaved root method target body saveErr

/-- C5 (atomicity of turned-down operations), at the input where the code
departs from it: a PUT on a context whose walk-back fails (path `a`, empty
subpath, empty walked stack).  The PUT branch reports the walk-back error with
status 500 but does not return.  When a map came back with the error the
handler goes on to write into it, calls the save and adds the success reply, so
the tree is mutated and persisted after the error; when the map is nil the
handler ends in the panic of the assignment into the nil map.  The DELETE
branch on the same context returns at the error with the tree unchanged and
nothing saved. -/
theorem walk_back_error_not_returned :
    WalkBack strayContext 1 = Except.error (ErrorKind.InsufficientDepth, some []) ∧
    primaryHandler "PUT" strayContext (Except.ok (Value.num 2)) none =
      Outcome.mk [("a", Value.num 2)]
        [Reply.error "InsufficientDepth" 500, Reply.json (successBody "value written")]
        true false ∧
    primaryHandler "PUT" strayContextNil (Except.ok (Value.num 2)) none =
      Outcome.mk leafTree [Reply.error "InsufficientDepth" 500] false true ∧
    primaryHandler "DELETE" strayContext (Except.ok Value.null) none =
      Outcome.mk leafTree [Reply.error "InsufficientDepth" 500] false false :=
  ⟨rfl, rfl, rfl, rfl⟩

/-- C6 (persistence failure policy).  For every accepted WRITE (depth at
least 1, parent container present) and every accepted DELETE (depth at least
1, path present): the save is called, success is reported exactly when the
save succeeds, a failed save is answered with status 500 ("Error saving root
tree: ..." followed by "Error saving value", respectively "Error deleting
value"), and whether or not the save succeeds the in-memory tree holds the
mutation: the path reads `v` after the WRITE and is absent after the DELETE.
The first two parts state the same on the handler alone, for every context
that passes `checkEmpty` and resolves its target map: the tree in the outcome
is the mutated one whatever the save returns. -/
theorem persistence_policy {ν : Type} (root : Container ν) (p : List String)
    (v : Value ν) (saveErr : Option String) (hp : p ≠ []) (hroot : p ≠ [""]) :
    (∀ (c : Context ν) (ref : List String) (k : String), c.Path ≠ [""] →
      putTarget c = some ([], some ref) → c.Path.getLast? = some k →
      primaryHandler "PUT" c (Except.ok v) saveErr =
        Outcome.mk (throughRef c.RootTree ref (fun m => mapAssign m k v))
          (match saveErr with
            | none => [Reply.json (successBody "value written")]
            | some err => [Reply.error ("Error saving root tree: " ++ err) 500,
                           Reply.error "Error saving value" 500])
          true false) ∧
    (∀ (c : Context ν) (body : Except String (Value ν)) (po : List String) (k : String),
      c.Path ≠ [""] → WalkBack c 1 = Except.ok po → c.Path.getLast? = some k →
      primaryHandler "DELETE" c body saveErr =
        Outcome.mk (throughRef c.RootTree po (fun m => mapDelete m k))
          (match saveErr with
            | none => [Reply.json (successBody "value deleted")]
            | some err => [Reply.error ("Error saving root tree: " ++ err) 500,
                           Reply.error "Error deleting value" 500])
          true false) ∧
    (∀ parent, nodeAt (Value.obj root) p.dropLast = some (Value.obj parent) →
      (WRITE root p v saveErr).saved = true ∧
      ((WRITE root p v saveErr).replies = [Reply.json (successBody "value written")] ↔
        saveErr = none) ∧
      (∀ err, saveErr = some err →
        (WRITE root p v saveErr).replies =
          [Reply.error ("Error saving root tree: " ++ err) 500,
           Reply.error "Error saving value" 500]) ∧
      nodeAt (Value.obj (WRITE root p v saveErr).RootTree) p = some v) ∧
    (∀ x, nodeAt (Value.obj root) p = some x →
      (DELETE root p saveErr).saved = true ∧
      ((DELETE root p saveErr).replies = [Reply.json (successBody "value deleted")] ↔
        saveErr = none) ∧
      (∀ err, saveErr = some err →
        (DELETE root p saveErr).replies =
          [Reply.error ("Error saving root tree: " ++ err) 500,
           Reply.error "Error deleting value" 500]) ∧
      nodeAt (Value.obj (DELETE root p saveErr).RootTree) p = none) := by
  obtain ⟨pos, k, rfl⟩ := path_concat p hp
  refine ⟨?_, ?_, ?_, ?_⟩
  · intro c ref k1 hc ht hk
    exact primaryHandler_PUT c v saveErr ref k1 hc ht hk
  · intro c body po k1 hc hw hk
    exact primaryHandler_DELETE c body saveErr po k1 hc hw hk
  · intro parent hpar
    rw [List.dropLast_concat] at hpar
    rw [WRITE_accepted root parent pos k v saveErr hpar hroot]
    obtain ⟨_, h2⟩ := throughRef_of_nodeAt (fun m => mapAssign m k v) pos root parent hpar
    refine ⟨rfl, ?_, ?_, ?_⟩
    · cases saveErr <;> simp
    · intro err he
      subst he
      rfl
    · simp only
      rw [nodeAt_snoc pos k _ _ h2, mapIndex_mapAssign_same]
  · intro x hx
    obtain ⟨c, hc, _⟩ := nodeAt_snoc_some pos k _ _ hx
    rw [DELETE_accepted root x pos k saveErr hx hroot]
    obtain ⟨_, h2⟩ := throughRef_of_nodeAt (fun m => mapDelete m k) pos root c hc
    refine ⟨rfl, ?_, ?_, ?_⟩
    · cases saveErr <;> simp
    · intro err he
      subst he
      rfl
    · simp only
      rw [nodeAt_snoc pos k _ _ h2, mapIndex_mapDelete_same]

theorem persistence_policy_witness :
    (["foo", "bar"] ≠ ([] : List String) ∧ ["foo", "bar"] ≠ [""] ∧
      nodeAt (Value.obj fooBarTree) ["foo", "bar"] = some (Value.num 42)) ∧
    ((DELETE fooBarTree ["foo", "bar"] (some "disk full")).saved = true ∧
      ((DELETE fooBarTree ["foo", "bar"] (some "disk full")).replies =
          [Reply.json (successBody "value deleted")] ↔ some "disk full" = none) ∧
      (∀ err, some "disk full" = some err →
        (DELETE fooBarTree ["foo", "bar"] (some "disk full")).replies =
          [Reply.error ("Error saving root tree: " ++ err) 500,
           Reply.error "Error deleting value" 500]) ∧
      nodeAt (Value.obj (DELETE fooBarTree ["foo", "bar"] (some "disk full")).RootTree)
        ["foo", "bar"] = none) :=
  ⟨⟨by decide, by decide, rfl⟩,
    (persistence_policy fooBarTree ["foo", "bar"] (Value.num 0) (some "disk full")
      (by decide) (by decide)).2.2.2 (Value.num 42) rfl⟩

/-- C7, as the claim states it, fails: on the empty tree WRITE(["foo","bar"], 42)
leaves two tokens unresolved, is turned down with SubpathTooDeep and leaves
the tree empty, so the tree does not become the one with `foo/bar` set to
42. -/
theorem end_to_end_counterexample :
    WRITE emptyTree ["foo", "bar"] (Value.num 42) none =
      Outcome.mk emptyTree (errorHandler ErrorKind.SubpathTooDeep) false false ∧
    (WRITE emptyTree ["foo", "bar"] (Value.num 42) none).RootTree ≠ fooBarTree := by
  refine ⟨rfl, ?_⟩
  have h : (WRITE emptyTree ["foo", "bar"] (Value.num 42) none).RootTree = [] := rfl
  rw [h]
  simp [fooBarTree]

/-- C7 (end-to-end scenario), amended to start from the tree in which the
container `foo` exists and is empty: WRITE(["foo","bar"], 42) succeeds and the
tree becomes the one with `foo/bar` set to 42; READ(["foo","bar"]) returns 42;
READ(["foo"]) returns the container holding `bar` = 42; DELETE(["foo","bar"])
succeeds and leaves `foo` empty; the final READ(["foo","bar"]) fails with
PathNotFound. -/
theorem end_to_end :
    WRITE fooTree ["foo", "bar"] (Value.num 42) none =
      Outcome.mk fooBarTree [Reply.json (successBody "value written")] true false ∧
    READ fooBarTree ["foo", "bar"] =
      Outcome.mk fooBarTree [Reply.json (Value.num 42)] false false ∧
    READ fooBarTree ["foo"] =
      Outcome.mk fooBarTree [Reply.json (Value.obj [("bar", Value.num 42)])] false false ∧
    DELETE fooBarTree ["foo", "bar"] none =
      Outcome.mk fooTree [Reply.json (successBody "value deleted")] true false ∧
    READ fooTree ["foo", "bar"] =
      Outcome.mk fooTree (errorHandler ErrorKind.PathNotFound) false false :=
  ⟨rfl, rfl, rfl, rfl, rfl⟩

/-- C8 (overwrite idempotence).  For every tree, every writable path `p` of
depth at least 1 and every value `v`: a second WRITE(p, v) right after the
first has the same outcome as the first, leaves the tree exactly as the first
left it, and both report success when the save succeeds.  Nothing is assumed
about the final key, so the first write may create it and the second then
overwrites it through the walk-back. -/
theorem write_twice {ν : Type} (root parent : Container ν) (p : List String)
    (v : Value ν) (hp : p ≠ []) (hroot : p ≠ [""])
    (hpar : nodeAt (Value.obj root) p.dropLast = some (Value.obj parent)) :
    (WRITE (WRITE root p v none).RootTree p v none).RootTree = (WRITE root p v none).RootTree ∧
    (WRITE root p v none).replies = [Reply.json (successBody "value written")] ∧
    (WRITE (WRITE root p v none).RootTree p v none).replies =
      [Reply.json (successBody "value written")] := by
  obtain ⟨pos, k, rfl⟩ := path_concat p hp
  rw [List.dropLast_concat] at hpar
  rw [WRITE_accepted root parent pos k v none hpar hroot]
  obtain ⟨h1, h2⟩ := throughRef_of_nodeAt (fun m => mapAssign m k v) pos root parent hpar
  simp only
  rw [WRITE_accepted _ _ pos k v none h2 hroot]
  refine ⟨?_, trivial, rfl⟩
  have h3 := updateAt_absorb (fun m => mapAssign m k v) (fun m => mapAssign m k v)
    (fun c => mapAssign_mapAssign c k v v) pos root _ h1
  generalize throughRef root pos (fun m => mapAssign m k v) = once at h3 ⊢
  show throughRef once pos (fun m => mapAssign m k v) = once
  unfold throughRef
  rw [h3]
  rfl

theorem write_twice_witness :
    (["foo", "bar"] ≠ ([] : List String) ∧ ["foo", "bar"] ≠ [""] ∧
      nodeAt (Value.obj fooTree) ["foo"] = some (Value.obj [])) ∧
    ((WRITE (WRITE fooTree ["foo", "bar"] (Value.num 42) none).RootTree ["foo", "bar"]
        (Value.num 42) none).RootTree =
        (WRITE fooTree ["foo", "bar"] (Value.num 42) none).RootTree ∧
      (WRITE fooTree ["foo", "bar"] (Value.num 42) none).replies =
        [Reply.json (successBody "value written")] ∧
      (WRITE (WRITE fooTree ["foo", "bar"] (Value.num 42) none).RootTree ["foo", "bar"]
        (Value.num 42) none).replies = [Reply.json (successBody "value written")]) :=
  ⟨⟨by decide, by decide, rfl⟩,
    write_twice fooTree [] ["foo", "bar"] (Value.num 42) (by decide) (by decide) rfl⟩

/-- C9 (write target resolution never fails).  For every tree and every
non-empty path that the traversal accepts for WRITE: the map the PUT branch
writes into is the container at the path minus its final token, which exists
in the tree.  When the key exists (empty subpath) the walked stack is the whole
path and Walk-back(1) succeeds with that parent; when the key is missing the
terminal node is that container.  The write through the reference lands in the
tree, and no PUT request, whatever its path and body, ends in a panic (failed
walk-back followed by a nil-map assignment, failed cast, index out of
range). -/
theorem write_target_resolved {ν : Type} (root : Container ν) (p : List String)
    (tr : TraversalResult ν) (hp : p ≠ [])
    (htr : traverse (subpathLimit "PUT") (Value.obj root) [] p = Except.ok tr) :
    (∃ parent, nodeAt (Value.obj root) p.dropLast = some (Value.obj parent) ∧
      putTarget (Context.mk root tr.CurrentObj (contextPath p) tr.Subpath tr.walked none) =
        some ([], some p.dropLast) ∧
      (tr.Subpath = [] → tr.walked = p ∧
        WalkBack (Context.mk root tr.CurrentObj (contextPath p) tr.Subpath tr.walked none) 1 =
          Except.ok p.dropLast) ∧
      (tr.Subpath ≠ [] → tr.CurrentObj = Value.obj parent ∧ tr.walked = p.dropLast) ∧
      (∀ f : Container ν → Container ν, ∃ t2, updateAt f root p.dropLast = some t2 ∧
        nodeAt (Value.obj t2) p.dropLast = some (Value.obj (f parent)))) ∧
    (∀ (q : List String) (body : Except String (Value ν)) (saveErr : Option String),
      (ServeHTTP root "PUT" q body saveErr).panicked = false) := by
  constructor
  · obtain ⟨parent, k, h1, _, h3, h4, h5, h6⟩ := putTarget_resolved root p tr hp htr
    refine ⟨parent, h1, h3, ?_, h6, ?_⟩
    · intro hs
      have hw := h5 hs
      refine ⟨hw, ?_⟩
      rw [hs, hw]
      exact h4
    · intro f
      exact updateAt_of_nodeAt f _ root parent h1
  · intro q body saveErr
    cases hr : traverse (subpathLimit "PUT") (Value.obj root) [] q with
    | error e => rw [ServeHTTP_error root "PUT" q body saveErr e hr]
    | ok tr2 =>
      rw [ServeHTTP_ok root "PUT" q body saveErr tr2 hr]
      by_cases hq : q = []
      · subst hq
        rw [primaryHandler_PUT_root _ _ _ rfl]
      · obtain ⟨_, k, _, h2, h3, _⟩ := putTarget_resolved root q tr2 hq hr
        exact primaryHandler_no_panic _ body saveErr _ k h3 h2

theorem write_target_resolved_witness :
    (["foo", "bar"] ≠ ([] : List String) ∧
      traverse (subpathLimit "PUT") (Value.obj fooTree) [] ["foo", "bar"] =
        Except.ok (TraversalResult.mk (Value.obj []) ["bar"] ["foo"])) ∧
    (∀ (q : List String) (body : Except String (Value Int)) (saveErr : Option String),
      (ServeHTTP fooTree "PUT" q body saveErr).panicked = false) :=
  ⟨⟨by decide, rfl⟩,
    (write_target_resolved fooTree ["foo", "bar"]
      (TraversalResult.mk (Value.obj []) ["bar"] ["foo"]) (by decide) rfl).2⟩

/-- C10 (frame of a mutation).  For every tree, every WRITE(p, v) or DELETE(p)
and every path `q` such that neither of `p`, `q` is a prefix of the other:
READ(q) answers after the operation exactly as it did before (the same value or
the same failure); and the operation either leaves the tree as it was or
changes it only by setting, respectively removing, the final key of `p` in the
container at its parent path. -/
theorem mutation_frame {ν : Type} (root : Container ν) (p q : List String)
    (v : Value ν) (saveErr : Option String) (hpq : ¬ p <+: q) (hqp : ¬ q <+: p) :
    (READ (WRITE root p v saveErr).RootTree q).replies = (READ root q).replies ∧
    (READ (DELETE root p saveErr).RootTree q).replies = (READ root q).replies ∧
    ((WRITE root p v saveErr).RootTree = root ∨
      ∃ pos k c, p = pos ++ [k] ∧ nodeAt (Value.obj root) pos = some (Value.obj c) ∧
        updateAt (fun m => mapAssign m k v) root pos =
          some (WRITE root p v saveErr).RootTree) ∧
    ((DELETE root p saveErr).RootTree = root ∨
      ∃ pos k c, p = pos ++ [k] ∧ nodeAt (Value.obj root) pos = some (Value.obj c) ∧
        updateAt (fun m => mapDelete m k) root pos =
          some (DELETE root p saveErr).RootTree) := by
  refine ⟨?_, ?_, WRITE_cases root p v saveErr, DELETE_cases root p saveErr⟩
  · rcases WRITE_cases root p v saveErr with h | ⟨pos, k, c, hpk, _, hu⟩
    · rw [h]
    · subst hpk
      apply READ_replies_congr
      exact traverse_frame (fun m => mapAssign m k v) k
        (fun c k1 hk => mapIndex_mapAssign_ne c k k1 v hk) pos root _ q [] hu hpq hqp
  · rcases DELETE_cases root p saveErr with h | ⟨pos, k, c, hpk, _, hu⟩
    · rw [h]
    · subst hpk
      apply READ_replies_congr
      exact traverse_frame (fun m => mapDelete m k) k
        (fun c k1 hk => mapIndex_mapDelete_ne c k k1 hk) pos root _ q [] hu hpq hqp

theorem mutation_frame_witness :
    (¬ ["foo", "bar"] <+: ["foo", "baz"] ∧ ¬ ["foo", "baz"] <+: ["foo", "bar"]) ∧
    (READ (WRITE siblingTree ["foo", "bar"] (Value.num 5) none).RootTree ["foo", "baz"]).replies =
      (READ siblingTree ["foo", "baz"]).replies ∧
    (READ (DELETE siblingTree ["foo", "bar"] none).RootTree ["foo", "baz"]).replies =
      (READ siblingTree ["foo", "baz"]).replies :=
  ⟨⟨by decide, by decide⟩,
    (mutation_frame siblingTree ["foo", "bar"] ["foo", "baz"] (Value.num 5) none
      (by decide) (by decide)).1,
    (mutation_frame siblingTree ["foo", "bar"] ["foo", "baz"] (Value.num 5) none
      (by decide) (by decide)).2.1⟩

end Gonfig
